/-
Verification of the Product-Catalog-API repository (catalog_api Django app).

This file shallowly embeds the data model (catalog_api/models.py), the
purchase action and list endpoint of ProductViewSet (catalog_api/views.py),
the ProductFilter filterset (catalog_api/filters.py) and the
HasAPIKeyForWriteOperations permission (catalog_api/permissions.py), and
proves the specification's claims about them.

Modelling conventions:
- `DecimalField(max_digits=10, decimal_places=2)` prices are rationals.
- `DateTimeField` timestamps are naturals (abstract instants); `auto_now`
  is modelled by passing the current instant to every save.
- `PositiveIntegerField` stock is carried as an integer (Python ints are
  unbounded); the database constraint `stock_quantity >= 0` appears as a
  hypothesis where needed, and is proved preserved by the purchase path.
- Request body values reaching `request.data.get("quantity")` are modelled
  by `ReqVal`: absent/null, a JSON integer, a JSON string, or a JSON array
  (the array constructor stands for any Python value on which `int(...)`
  raises `TypeError` rather than `ValueError`).  JSON floats and booleans
  are outside the modelled universe.
- Python's `int(str)` accepts surrounding whitespace, one optional sign and
  decimal digits with single interior underscores; this is modelled by
  `pyIntOfStr` (non-ASCII digit forms are out of scope).
-/
import Mathlib

/-! ## Data model (catalog_api/models.py) -/

/-- `Category` model: surrogate id, unique name, optional description,
server-maintained timestamps. -/
structure Category where
  id : Nat
  name : String
  description : Option String
  created_at : Nat
  updated_at : Nat
deriving DecidableEq, Repr

/-- `Product` model: surrogate id, unique name, optional description,
two-place decimal price, non-negative stock (kept as an integer, with the
database constraint stated as a hypothesis where relevant), optional image
URL, featured flag, optional foreign key to a `Category` (stored as its id),
server-maintained timestamps. -/
structure Product where
  id : Nat
  name : String
  description : Option String
  price : ℚ
  stock_quantity : ℤ
  image_url : Option String
  is_featured : Bool
  category : Option Nat
  created_at : Nat
  updated_at : Nat
deriving DecidableEq, Repr

/-! ## Request body values and Python `int(...)` conversion -/

/-- Errors Python's `int(...)` can raise: `ValueError` (malformed string)
or `TypeError` (value of a type `int` does not accept, e.g. a list). -/
inductive PyErr where
  | valueError
  | typeError
deriving DecidableEq, Repr

/-- The value `request.data.get("quantity")` can yield in the model:
absent (or JSON null), a JSON integer, a JSON string, or a JSON array. -/
inductive ReqVal where
  | none
  | vint (n : ℤ)
  | vstr (s : String)
  | vlist
deriving DecidableEq, Repr

/-- After the first digit, Python integer literals allow digits separated
by single underscores; no trailing or doubled underscore. -/
def pyIntDigitsRest : List Char → Bool
  | [] => true
  | '_' :: [] => false
  | '_' :: d :: rest => d.isDigit && pyIntDigitsRest rest
  | c :: rest => c.isDigit && pyIntDigitsRest rest

/-- A non-empty digit string with single interior underscores, as accepted
by Python's `int(...)` after sign and whitespace handling. -/
def pyIntDigits : List Char → Bool
  | [] => false
  | c :: rest => c.isDigit && pyIntDigitsRest rest

/-- Strip leading and trailing whitespace, as Python's `int(str)` does. -/
def stripWs (s : List Char) : List Char :=
  ((s.dropWhile Char.isWhitespace).reverse.dropWhile Char.isWhitespace).reverse

/-- Numeric value of a digit-and-underscore string. -/
def natOfDigits (cs : List Char) : Nat :=
  cs.foldl (fun a c => if c = '_' then a else a * 10 + (c.toNat - 48)) 0

/-- Python's `int(s)` on a string: strip whitespace, optional single sign,
then decimal digits with single interior underscores; anything else raises
`ValueError`. -/
def pyIntOfStr (s : String) : Except PyErr ℤ :=
  match stripWs s.toList with
  | '+' :: rest =>
      if pyIntDigits rest then .ok (natOfDigits rest) else .error .valueError
  | '-' :: rest =>
      if pyIntDigits rest then .ok (-(natOfDigits rest : ℤ)) else .error .valueError
  | cs =>
      if pyIntDigits cs then .ok (natOfDigits cs) else .error .valueError

/-- Python's `int(value)`: integers pass through, strings are parsed
(`ValueError` on failure), other values (modelled by `vlist`, and also
`None`) raise `TypeError`. -/
def pyInt : ReqVal → Except PyErr ℤ
  | .none => .error .typeError
  | .vint n => .ok n
  | .vstr s => pyIntOfStr s
  | .vlist => .error .typeError

/-! ## The purchase action (ProductViewSet.purchase, catalog_api/views.py) -/

/-- HTTP responses the endpoints produce: 200 with a serialized product,
400 with a detail message, 404, 403. -/
inductive Response where
  | ok (p : Product)
  | badRequest (detail : String)
  | notFound
  | forbidden
deriving DecidableEq, Repr

instance {ε α : Type} [DecidableEq ε] [DecidableEq α] : DecidableEq (Except ε α)
  | .ok x, .ok y => decidable_of_iff (x = y) (by simp)
  | .ok _, .error _ => isFalse (by simp)
  | .error _, .ok _ => isFalse (by simp)
  | .error x, .error y => decidable_of_iff (x = y) (by simp)

/-- Outcome of running the purchase action on one product row: the
response (`Except.error e` models an exception escaping the handler, i.e.
a 500-class server error, never a structured response) and the state of
the product row afterwards. -/
structure PurchaseOutcome where
  resp : Except PyErr Response
  product : Product
deriving DecidableEq, Repr

/-- `ProductViewSet.purchase`, acting on the product row `get_object()`
returned.  Mirrors views.py: missing quantity → 400 "Quantity is
required."; `int(quantity)` with `except ValueError` → 400 "Quantity must
be an integer." (a `TypeError` is NOT caught and escapes); `quantity <= 0`
→ 400 "Quantity must be a positive integer."; insufficient stock → 400
naming the available quantity; otherwise decrement, save (refreshing
`updated_at` to `now`), and return 200 with the updated product. -/
def purchase (p : Product) (v : ReqVal) (now : Nat) : PurchaseOutcome :=
  match v with
  | .none => ⟨.ok (.badRequest "Quantity is required."), p⟩
  | _ =>
    match pyInt v with
    | .error .valueError => ⟨.ok (.badRequest "Quantity must be an integer."), p⟩
    | .error .typeError => ⟨.error .typeError, p⟩
    | .ok q =>
      if q ≤ 0 then
        ⟨.ok (.badRequest "Quantity must be a positive integer."), p⟩
      else if p.stock_quantity < q then
        ⟨.ok (.badRequest
          ("Not enough stock. Only " ++ toString p.stock_quantity ++ " available.")), p⟩
      else
        let p' : Product :=
          { p with stock_quantity := p.stock_quantity - q, updated_at := now }
        ⟨.ok (.ok p'), p'⟩

/-- A sequence of purchase attempts against one product row, each with a
request value and a save instant; failed attempts leave the row as it was. -/
def runPurchases (p : Product) (reqs : List (ReqVal × Nat)) : Product :=
  reqs.foldl (fun prod r => (purchase prod r.1 r.2).product) p

/-! ## The persistent store and the purchase endpoint on it -/

/-- The relational store: product rows and category rows. -/
structure Store where
  products : List Product
  categories : List Category
deriving DecidableEq, Repr

/-- `POST /products/{pk}/purchase/` against the store: `get_object()` looks
the product up by primary key (404 when absent), the action body runs on
that row, and `product.save()` writes the (possibly updated) row back by
primary key.  Category rows are never touched. -/
def purchaseStore (s : Store) (pk : Nat) (v : ReqVal) (now : Nat) :
    Except PyErr Response × Store :=
  match s.products.find? (fun p => p.id = pk) with
  | Option.none => (.ok .notFound, s)
  | some p =>
    let out := purchase p v now
    (out.resp,
      { s with products := s.products.map (fun q => if q.id = pk then out.product else q) })

/-! ## Access control (catalog_api/permissions.py) -/

/-- `rest_framework.permissions.SAFE_METHODS`. -/
def SAFE_METHODS : List String := ["GET", "HEAD", "OPTIONS"]

/-- Modelled from the spec: the external `rest_framework_api_key` package's
`HasAPIKey` permission (not part of this repository) grants access exactly
when the request presents a credential that is among the issued API keys. -/
def hasAPIKey (issued : List String) (presented : Option String) : Bool :=
  match presented with
  | Option.none => false
  | some k => issued.contains k

/-- `HasAPIKeyForWriteOperations.has_permission`: safe (read-only) methods
always pass; write methods delegate to `HasAPIKey`. -/
def has_permission (issued : List String) (method : String)
    (presented : Option String) : Bool :=
  if SAFE_METHODS.contains method then true
  else hasAPIKey issued presented

/-- Request dispatch through the permission gate: when `has_permission`
denies, the framework returns 403 Forbidden without invoking the handler;
otherwise the handler runs on the store. -/
def processRequest (issued : List String) (method : String)
    (presented : Option String) (handler : Store → Response × Store)
    (s : Store) : Response × Store :=
  if has_permission issued method presented then handler s
  else (.forbidden, s)

/-! ## Interleaved purchases (concurrency model for §5 of the spec)

Django runs each request in autocommit mode here: `purchase` contains no
`select_for_update`, no `transaction.atomic` block and no conditional
update, so `get_object()`'s SELECT and `product.save()`'s UPDATE from two
concurrent requests on the same row may interleave freely.  A request is
two atomic store accesses: a read of the row's stock, and (after the
in-memory check) an unconditional write of `readValue - quantity`. -/

/-- The write phase of one purchase request: `readVal` is the stock read
earlier by `get_object()`, `stock` the row's current stock.  The view
compares the stale in-memory value, and `save()` writes the in-memory
object's fields unconditionally.  Returns (succeeded?, new row stock). -/
def writePhase (stock readVal q : ℤ) : Bool × ℤ :=
  if readVal < q then (false, stock)
  else (true, readVal - q)

/-- Two concurrent purchase requests on one product row, with quantities
`q1` and `q2` (both having passed input validation), under the schedule
read₁, read₂, write₁, write₂.  Returns (request 1 succeeded, request 2
succeeded, final row stock). -/
def interleavedPurchases (stock q1 q2 : ℤ) : Bool × Bool × ℤ :=
  let r1 := stock
  let r2 := stock
  let w1 := writePhase stock r1 q1
  let w2 := writePhase w1.2 r2 q2
  (w1.1, w2.1, w2.2)

/-! ## Filtering (catalog_api/filters.py) -/

/-- Executable prefix test on character lists. -/
def listIsPrefixOf : List Char → List Char → Bool
  | [], _ => true
  | _ :: _, [] => false
  | a :: xs, b :: ys => a = b && listIsPrefixOf xs ys

/-- Executable contiguous-substring test on character lists. -/
def listIsInfixOf : List Char → List Char → Bool
  | needle, [] => needle.isEmpty
  | needle, b :: t => listIsPrefixOf needle (b :: t) || listIsInfixOf needle t

theorem listIsPrefixOf_iff (xs ys : List Char) :
    listIsPrefixOf xs ys = true ↔ xs <+: ys := by
  induction xs generalizing ys with
  | nil => simp [listIsPrefixOf]
  | cons a xs ih =>
    cases ys with
    | nil => simp [listIsPrefixOf]
    | cons b ys => simp [listIsPrefixOf, ih, List.cons_prefix_cons]

theorem listIsInfixOf_iff (xs ys : List Char) :
    listIsInfixOf xs ys = true ↔ xs <:+: ys := by
  induction ys with
  | nil => cases xs <;> simp [listIsInfixOf, List.isEmpty]
  | cons b ys ih => simp [listIsInfixOf, ih, listIsPrefixOf_iff, List.infix_cons_iff]

/-- Django's `icontains` lookup: case-insensitive substring match (ASCII
case folding, as in the default database collation). -/
def icontains (hay needle : String) : Bool :=
  listIsInfixOf (needle.toList.map Char.toLower) (hay.toList.map Char.toLower)

/-- The parsed filter parameters of `ProductFilter`: each declared filter
either received a (validated) value or was not supplied.  `category` is a
`NumberFilter` on `category__id`, so its value is numeric and compared
against the foreign-key id. -/
structure ProductFilter where
  name : Option String
  min_price : Option ℚ
  max_price : Option ℚ
  category : Option ℚ
  available : Option Bool
  is_featured : Option Bool
deriving DecidableEq, Repr

/-- `ProductFilter.filter_available`: `available=true` keeps rows with
`stock_quantity > 0`, `available=false` keeps rows with
`stock_quantity = 0`. -/
def filter_available (qs : List Product) (value : Bool) : List Product :=
  if value then qs.filter (fun p => 0 < p.stock_quantity)
  else qs.filter (fun p => p.stock_quantity = 0)

/-- Apply one declared filter when its parameter was supplied. -/
def applyOpt {α : Type} (qs : List Product) (v : Option α)
    (f : List Product → α → List Product) : List Product :=
  match v with
  | Option.none => qs
  | some x => f qs x

/-- `FilterSet.filter_queryset`: chain `queryset.filter(...)` for every
supplied parameter, in declaration order (name, min_price, max_price,
category, available, is_featured). -/
def ProductFilter.filter_queryset (fp : ProductFilter) (qs : List Product) :
    List Product :=
  let qs := applyOpt qs fp.name (fun l v => l.filter (fun p => icontains p.name v))
  let qs := applyOpt qs fp.min_price (fun l v => l.filter (fun p => v ≤ p.price))
  let qs := applyOpt qs fp.max_price (fun l v => l.filter (fun p => p.price ≤ v))
  let qs := applyOpt qs fp.category
    (fun l v => l.filter (fun p => p.category.map (fun c => (c : ℚ)) = some v))
  let qs := applyOpt qs fp.available filter_available
  let qs := applyOpt qs fp.is_featured (fun l v => l.filter (fun p => p.is_featured = v))
  qs

/-! ## Ordering (ProductViewSet.ordering_fields and Product.Meta.ordering) -/

/-- `ProductViewSet.ordering_fields`. -/
def ordering_fields : List String := ["name", "price", "stock_quantity", "created_at"]

/-- The sortable columns. -/
inductive OrdKey where
  | name
  | price
  | stock_quantity
  | created_at
deriving DecidableEq, Repr

/-- Map an ordering field name to its column. -/
def keyOf (s : String) : Option OrdKey :=
  if s = "name" then some .name
  else if s = "price" then some .price
  else if s = "stock_quantity" then some .stock_quantity
  else if s = "created_at" then some .created_at
  else Option.none

/-- Executable lexicographic (code-point) order on character lists: the
order `ORDER BY name` uses under the default binary collation, and the
order on `String.data` underlying `String`'s own order. -/
def charListLe : List Char → List Char → Bool
  | [], _ => true
  | _ :: _, [] => false
  | a :: xs, b :: ys =>
    a.toNat < b.toNat || (a.toNat = b.toNat && charListLe xs ys)

theorem charListLe_total (xs ys : List Char) :
    charListLe xs ys = true ∨ charListLe ys xs = true := by
  induction xs generalizing ys with
  | nil => exact Or.inl rfl
  | cons a xs ih =>
    cases ys with
    | nil => exact Or.inr rfl
    | cons b ys =>
      rcases Nat.lt_trichotomy a.toNat b.toNat with h | h | h
      · left
        simp [charListLe, h]
      · rcases ih ys with h2 | h2
        · left
          simp [charListLe, h, h2]
        · right
          simp [charListLe, h.symm, h2]
      · right
        simp [charListLe, h]

theorem charListLe_trans (xs ys zs : List Char) (h1 : charListLe xs ys = true)
    (h2 : charListLe ys zs = true) : charListLe xs zs = true := by
  induction xs generalizing ys zs with
  | nil => rfl
  | cons a xs ih =>
    cases ys with
    | nil => simp [charListLe] at h1
    | cons b ys =>
      cases zs with
      | nil => simp [charListLe] at h2
      | cons c zs =>
        simp only [charListLe, Bool.or_eq_true, Bool.and_eq_true,
          decide_eq_true_eq] at h1 h2 ⊢
        rcases h1 with h1 | ⟨he1, hr1⟩
        · rcases h2 with h2 | ⟨he2, hr2⟩
          · exact Or.inl (by omega)
          · exact Or.inl (by omega)
        · rcases h2 with h2 | ⟨he2, hr2⟩
          · exact Or.inl (by omega)
          · exact Or.inr ⟨by omega, ih ys zs hr1 hr2⟩

/-- Ascending comparison on one column. -/
def keyLE : OrdKey → Product → Product → Prop
  | .name => fun a b => charListLe a.name.toList b.name.toList = true
  | .price => fun a b => a.price ≤ b.price
  | .stock_quantity => fun a b => a.stock_quantity ≤ b.stock_quantity
  | .created_at => fun a b => a.created_at ≤ b.created_at

/-- Descending comparison on one column. -/
def keyGE (k : OrdKey) (a b : Product) : Prop := keyLE k b a

instance keyLE.instDecidable (k : OrdKey) : DecidableRel (keyLE k) :=
  match k with
  | .name => fun a b =>
      inferInstanceAs (Decidable (charListLe a.name.toList b.name.toList = true))
  | .price => fun a b => inferInstanceAs (Decidable (a.price ≤ b.price))
  | .stock_quantity => fun a b =>
      inferInstanceAs (Decidable (a.stock_quantity ≤ b.stock_quantity))
  | .created_at => fun a b => inferInstanceAs (Decidable (a.created_at ≤ b.created_at))

instance keyGE.instDecidable (k : OrdKey) : DecidableRel (keyGE k) :=
  fun a b => keyLE.instDecidable k b a

instance keyLE.instIsTotal (k : OrdKey) : IsTotal Product (keyLE k) := by
  cases k with
  | name => exact ⟨fun a b => charListLe_total _ _⟩
  | price => exact ⟨fun a b => le_total _ _⟩
  | stock_quantity => exact ⟨fun a b => le_total _ _⟩
  | created_at => exact ⟨fun a b => le_total _ _⟩

instance keyLE.instIsTrans (k : OrdKey) : IsTrans Product (keyLE k) := by
  cases k with
  | name => exact ⟨fun a b c h₁ h₂ => charListLe_trans _ _ _ h₁ h₂⟩
  | price => exact ⟨fun a b c h₁ h₂ => le_trans h₁ h₂⟩
  | stock_quantity => exact ⟨fun a b c h₁ h₂ => le_trans h₁ h₂⟩
  | created_at => exact ⟨fun a b c h₁ h₂ => le_trans h₁ h₂⟩

instance keyGE.instIsTotal (k : OrdKey) : IsTotal Product (keyGE k) :=
  ⟨fun a b => (keyLE.instIsTotal k).total b a⟩

instance keyGE.instIsTrans (k : OrdKey) : IsTrans Product (keyGE k) :=
  ⟨fun _ _ _ h₁ h₂ => (keyLE.instIsTrans k).trans _ _ _ h₂ h₁⟩

/-- Split a character list on commas, as Python's `params.split(',')`:
the empty list yields one empty group, and separators at the ends yield
empty groups. -/
def splitComma : List Char → List (List Char)
  | [] => [[]]
  | ',' :: rest => [] :: splitComma rest
  | c :: rest =>
    match splitComma rest with
    | [] => [[c]]
    | g :: gs => (c :: g) :: gs

/-- Interpretation of one stripped ordering term, as
`rest_framework.filters.OrderingFilter` does it: one leading `-` marks
descending, the remainder must name one of `ordering_fields`; `none`
when the term is invalid and is to be removed. -/
def termKey (cs : List Char) : Option (OrdKey × Bool) :=
  match cs with
  | '-' :: rest => (keyOf (String.mk rest)).map (fun k => (k, true))
  | _ => (keyOf (String.mk cs)).map (fun k => (k, false))

/-- The `term_valid` test of `OrderingFilter.remove_invalid_fields`: a term
survives exactly when, after stripping one leading `-`, it names one of
`ordering_fields`. -/
def term_valid (cs : List Char) : Bool :=
  (termKey cs).isSome

/-- The `OrderingFilter.get_ordering` pipeline: a missing or empty (falsy)
`ordering` parameter yields no ordering; otherwise split the parameter on
commas, strip whitespace around each term (`param.strip()`; ASCII
whitespace in the model), and keep the valid terms.  An empty result makes
the filter fall back to the view's default ordering (this view sets none,
so the queryset keeps `Product.Meta.ordering = ["name"]`). -/
def get_ordering (param : Option String) : List (OrdKey × Bool) :=
  match param with
  | Option.none => []
  | some t =>
    if t = "" then []
    else ((splitComma t.toList).map stripWs).filterMap termKey

/-- Comparison by a single ordering term: ascending or descending on its
column. -/
def termLE (t : OrdKey × Bool) (a b : Product) : Prop :=
  if t.2 then keyGE t.1 a b else keyLE t.1 a b

instance termLE.instDecidable (t : OrdKey × Bool) : DecidableRel (termLE t) :=
  match t with
  | (k, true) => fun a b => inferInstanceAs (Decidable (keyGE k a b))
  | (k, false) => fun a b => inferInstanceAs (Decidable (keyLE k a b))

theorem termLE_total (t : OrdKey × Bool) (a b : Product) :
    termLE t a b ∨ termLE t b a := by
  unfold termLE
  split
  · exact (keyGE.instIsTotal t.1).total a b
  · exact (keyLE.instIsTotal t.1).total a b

theorem termLE_trans (t : OrdKey × Bool) (a b c : Product)
    (h1 : termLE t a b) (h2 : termLE t b c) : termLE t a c := by
  unfold termLE at h1 h2 ⊢
  by_cases hd : t.2 = true
  · simp only [hd, if_true] at h1 h2 ⊢
    exact (keyGE.instIsTrans t.1).trans a b c h1 h2
  · simp only [hd, if_false] at h1 h2 ⊢
    exact (keyLE.instIsTrans t.1).trans a b c h1 h2

/-- Lexicographic comparison induced by `queryset.order_by(t₁, t₂, ...)`:
the first term on which the rows differ decides, later terms break ties. -/
def orderingLE : List (OrdKey × Bool) → Product → Product → Prop
  | [], _, _ => True
  | t :: ts, a, b => ¬ termLE t b a ∨ (termLE t a b ∧ orderingLE ts a b)

def orderingLEdec : (ts : List (OrdKey × Bool)) → (a b : Product) →
    Decidable (orderingLE ts a b)
  | [], _, _ => isTrue trivial
  | t :: ts, a, b =>
      @instDecidableOr _ _ (@instDecidableNot _ (termLE.instDecidable t b a))
        (@instDecidableAnd _ _ (termLE.instDecidable t a b) (orderingLEdec ts a b))

instance (ts : List (OrdKey × Bool)) : DecidableRel (orderingLE ts) :=
  orderingLEdec ts

theorem orderingLE_total (ts : List (OrdKey × Bool)) (a b : Product) :
    orderingLE ts a b ∨ orderingLE ts b a := by
  induction ts with
  | nil => exact Or.inl trivial
  | cons t ts ih =>
    by_cases hba : termLE t b a
    · by_cases hab : termLE t a b
      · rcases ih with h | h
        · exact Or.inl (Or.inr ⟨hab, h⟩)
        · exact Or.inr (Or.inr ⟨hba, h⟩)
      · exact Or.inr (Or.inl hab)
    · exact Or.inl (Or.inl hba)

theorem orderingLE_trans : ∀ (ts : List (OrdKey × Bool)) (a b c : Product),
    orderingLE ts a b → orderingLE ts b c → orderingLE ts a c
  | [], _, _, _, _, _ => trivial
  | t :: ts, a, b, c, h1, h2 => by
    rcases h1 with h1 | ⟨hab, h1⟩
    · rcases h2 with h2 | ⟨hbc, h2⟩
      · left
        intro hca
        have hab2 : termLE t a b := (termLE_total t a b).resolve_right h1
        exact h2 (termLE_trans t c a b hca hab2)
      · left
        intro hca
        exact h1 (termLE_trans t b c a hbc hca)
    · rcases h2 with h2 | ⟨hbc, h2⟩
      · left
        intro hca
        exact h2 (termLE_trans t c a b hca hab)
      · right
        exact ⟨termLE_trans t a b c hab hbc, orderingLE_trans ts a b c h1 h2⟩

instance orderingLE.instIsTotal (ts : List (OrdKey × Bool)) :
    IsTotal Product (orderingLE ts) := ⟨orderingLE_total ts⟩

instance orderingLE.instIsTrans (ts : List (OrdKey × Bool)) :
    IsTrans Product (orderingLE ts) := ⟨orderingLE_trans ts⟩

/-- With a single ordering term, the lexicographic order is that term's
comparison. -/
theorem orderingLE_single (t : OrdKey × Bool) (a b : Product) :
    orderingLE [t] a b ↔ termLE t a b := by
  constructor
  · intro h
    rcases show ¬ termLE t b a ∨ (termLE t a b ∧ True) from h with h | ⟨h, _⟩
    · exact (termLE_total t a b).resolve_right h
    · exact h
  · intro h
    exact Or.inr ⟨h, trivial⟩

/-- `queryset.order_by(t₁, t₂, ...)`: sort lexicographically on the
terms. -/
def order_by (ts : List (OrdKey × Bool)) (qs : List Product) : List Product :=
  qs.insertionSort (orderingLE ts)

/-- `GET /products/`: the base queryset carries `Product.Meta.ordering =
["name"]`; `DjangoFilterBackend` applies `ProductFilter`; `OrderingFilter`
re-orders by the valid ordering terms when there are any and otherwise
leaves the default name ordering. -/
def listProducts (qs : List Product) (fp : ProductFilter)
    (ordering : Option String) : List Product :=
  let base := fp.filter_queryset (qs.insertionSort (keyLE .name))
  let ts := get_ordering ordering
  if ts.isEmpty then base else order_by ts base

/-! ## Query-string parsing for the list endpoint

`django_filters.FilterSet` looks up only its declared parameter names in
the query string and ignores every other key; `OrderingFilter` reads only
`ordering`.  Numeric filter values go through `forms.DecimalField`
(empty value → filter skipped; malformed value → validation error, a 400);
boolean values go through `forms.NullBooleanField` (unrecognized → `None`,
filter skipped).  Scientific-notation decimals are outside the model. -/

/-- Last value bound to a key in the query string (Django's `QueryDict`
returns the last of repeated values), if present. -/
def getParam (query : List (String × String)) (k : String) : Option String :=
  (query.reverse.find? (fun kv => kv.1 = k)).map (fun kv => kv.2)

/-- Numeric value of a plain digit string. -/
def natOfDigitsPlain (cs : List Char) : Nat :=
  cs.foldl (fun a c => a * 10 + (c.toNat - 48)) 0

/-- `forms.DecimalField` parsing: optional sign, then digits, optionally a
point with fractional digits (at least one digit overall). -/
def parseDecimalStr (s : String) : Option ℚ :=
  let cs := stripWs s.toList
  let sgncs : ℚ × List Char :=
    match cs with
    | '-' :: rest => (-1, rest)
    | '+' :: rest => (1, rest)
    | _ => (1, cs)
  let intp := sgncs.2.takeWhile Char.isDigit
  let rest := sgncs.2.dropWhile Char.isDigit
  match rest with
  | [] =>
    if intp.isEmpty then Option.none
    else some (sgncs.1 * (natOfDigitsPlain intp : ℚ))
  | '.' :: frac =>
    if frac.all Char.isDigit && !(intp.isEmpty && frac.isEmpty) then
      some (sgncs.1 * ((natOfDigitsPlain intp : ℚ) +
        (natOfDigitsPlain frac : ℚ) / ((10 : ℚ) ^ frac.length)))
    else Option.none
  | _ => Option.none

/-- `forms.NullBooleanField.to_python` on a query value. -/
def parseBoolNull (s : String) : Option Bool :=
  if s = "True" ∨ s = "true" ∨ s = "1" then some true
  else if s = "False" ∨ s = "false" ∨ s = "0" then some false
  else Option.none

/-- A supplied numeric parameter: absent or empty → no constraint;
malformed → validation failure (outer `Option.none`). -/
def reqDec (v : Option String) : Option (Option ℚ) :=
  match v with
  | Option.none => some Option.none
  | some s => if s = "" then some Option.none else (parseDecimalStr s).map some

/-- Build the `ProductFilter` bound to a query string; `Option.none` models
the 400 a malformed numeric value produces. -/
def parseFilterParams (query : List (String × String)) : Option ProductFilter :=
  match reqDec (getParam query "min_price"), reqDec (getParam query "max_price"),
        reqDec (getParam query "category") with
  | some minp, some maxp, some cat =>
      some
        { name := (getParam query "name").bind
            (fun s => if s = "" then Option.none else some s),
          min_price := minp, max_price := maxp, category := cat,
          available := (getParam query "available").bind parseBoolNull,
          is_featured := (getParam query "is_featured").bind parseBoolNull }
  | _, _, _ => Option.none

/-- `GET /products/` from the raw query string. -/
def handleList (s : Store) (query : List (String × String)) :
    Option (List Product) :=
  (parseFilterParams query).map
    (fun fp => listProducts s.products fp (getParam query "ordering"))

/-- The query-string keys the list endpoint reads. -/
def recognizedKeys : List String :=
  ["name", "min_price", "max_price", "category", "available", "is_featured", "ordering"]

example :
    (purchase ⟨1, "A", Option.none, 10, 10, Option.none, false, Option.none, 0, 0⟩
      (ReqVal.vint 3) 5).product.stock_quantity = 7 := by decide

example :
    (purchase ⟨1, "A", Option.none, 10, 7, Option.none, false, Option.none, 0, 0⟩
      (ReqVal.vint 8) 5).resp =
      Except.ok (Response.badRequest "Not enough stock. Only 7 available.") := by
  decide

example : pyInt (ReqVal.vstr " 1_0 ") = Except.ok 10 := by decide

example : pyInt (ReqVal.vstr "3.5") = Except.error PyErr.valueError := by decide

/-! ## Sample rows used in witnesses -/

/-- A sample category row. -/
def sampleCategory : Category := ⟨1, "Books", Option.none, 0, 0⟩

/-- A sample product row with stock 10. -/
def sampleProduct : Product :=
  ⟨1, "Animal Farm", some "A satirical novella", 10, 10, Option.none, true, some 1, 0, 0⟩

/-- A second sample product row, in no category. -/
def sampleProduct2 : Product :=
  ⟨2, "Macbeth", Option.none, 20, 5, Option.none, false, Option.none, 0, 0⟩

/-- A sample store. -/
def sampleStore : Store := ⟨[sampleProduct, sampleProduct2], [sampleCategory]⟩

/-- The filter with no parameter supplied. -/
def emptyFilter : ProductFilter :=
  ⟨Option.none, Option.none, Option.none, Option.none, Option.none, Option.none⟩

/-! ## Branch inversion lemmas for the purchase action -/

/-- When `int(quantity)` yields `q`, the purchase action reduces to the
positivity check, the stock check and the decrement. -/
theorem purchase_of_pyInt_ok (p : Product) (v : ReqVal) (now : Nat) (q : ℤ)
    (hq : pyInt v = .ok q) :
    purchase p v now =
      if q ≤ 0 then ⟨.ok (.badRequest "Quantity must be a positive integer."), p⟩
      else if p.stock_quantity < q then
        ⟨.ok (.badRequest
          ("Not enough stock. Only " ++ toString p.stock_quantity ++ " available.")), p⟩
      else
        ⟨.ok (.ok { p with stock_quantity := p.stock_quantity - q, updated_at := now }),
          { p with stock_quantity := p.stock_quantity - q, updated_at := now }⟩ := by
  cases v with
  | none => simp [pyInt] at hq
  | vint n =>
      simp [pyInt] at hq
      subst hq
      rfl
  | vstr s =>
      simp only [purchase]
      rw [show pyInt (ReqVal.vstr s) = .ok q from hq]
  | vlist => simp [pyInt] at hq

/-- When `int(quantity)` raises `ValueError`, the action answers 400
"Quantity must be an integer." without touching the row. -/
theorem purchase_of_valueError (p : Product) (v : ReqVal) (now : Nat)
    (hv : pyInt v = .error .valueError) :
    purchase p v now = ⟨.ok (.badRequest "Quantity must be an integer."), p⟩ := by
  cases v with
  | none => simp [pyInt] at hv
  | vint n => simp [pyInt] at hv
  | vstr s =>
      simp only [purchase]
      rw [show pyInt (ReqVal.vstr s) = .error .valueError from hv]
  | vlist => simp [pyInt] at hv

/-- No branch of the action writes the row back unless the purchase
succeeded, so in every error case the row is unchanged. -/
theorem purchase_product_of_error (p : Product) (v : ReqVal) (now : Nat) (e : PyErr)
    (hv : pyInt v = .error e) : (purchase p v now).product = p := by
  cases v with
  | none => rfl
  | vint n => simp [pyInt] at hv
  | vstr s =>
      simp only [purchase]
      rw [show pyInt (ReqVal.vstr s) = .error e from hv]
      cases e <;> rfl
  | vlist => rfl

/-- One purchase attempt keeps the stock non-negative. -/
theorem purchase_stock_nonneg (p : Product) (v : ReqVal) (now : Nat)
    (h : 0 ≤ p.stock_quantity) : 0 ≤ (purchase p v now).product.stock_quantity := by
  cases hv : pyInt v with
  | error e => rw [purchase_product_of_error p v now e hv]; exact h
  | ok q =>
      rw [purchase_of_pyInt_ok p v now q hv]
      split_ifs with h1 h2 <;> simp <;> omega

/-- Success shape: quantity parsed, positive and within stock. -/
theorem purchase_success_aux (p : Product) (v : ReqVal) (now : Nat) (q : ℤ)
    (hq : pyInt v = .ok q) (hpos : 0 < q) (hle : q ≤ p.stock_quantity) :
    purchase p v now =
      ⟨.ok (.ok { p with stock_quantity := p.stock_quantity - q, updated_at := now }),
        { p with stock_quantity := p.stock_quantity - q, updated_at := now }⟩ := by
  rw [purchase_of_pyInt_ok p v now q hq, if_neg (by omega), if_neg (by omega)]

/-- A 200 response can only come from the success branch: the row written
back is the one in the response, and it differs from the old row only in
`stock_quantity` (strictly decreased) and `updated_at`. -/
theorem purchase_resp_ok_inv (p : Product) (v : ReqVal) (now : Nat) (p' : Product)
    (h : (purchase p v now).resp = Except.ok (Response.ok p')) :
    (purchase p v now).product = p' ∧
    p'.id = p.id ∧ p'.name = p.name ∧ p'.description = p.description ∧
    p'.price = p.price ∧ p'.image_url = p.image_url ∧
    p'.is_featured = p.is_featured ∧ p'.category = p.category ∧
    p'.created_at = p.created_at ∧ p'.stock_quantity < p.stock_quantity := by
  cases hv : pyInt v with
  | error e =>
      exfalso
      cases v with
      | none => simp [purchase] at h
      | vint n => simp [pyInt] at hv
      | vstr s =>
          simp only [purchase] at h
          rw [show pyInt (ReqVal.vstr s) = .error e from hv] at h
          cases e <;> simp at h
      | vlist =>
          simp [purchase, pyInt] at h
  | ok q =>
      rw [purchase_of_pyInt_ok p v now q hv] at h ⊢
      by_cases h1 : q ≤ 0
      · rw [if_pos h1] at h; simp at h
      · rw [if_neg h1] at h ⊢
        by_cases h2 : p.stock_quantity < q
        · rw [if_pos h2] at h; simp at h
        · rw [if_neg h2] at h ⊢
          simp at h
          subst h
          refine ⟨rfl, rfl, rfl, rfl, rfl, rfl, rfl, rfl, rfl, ?_⟩
          simp
          omega

/-! ## Claims about the purchase action -/

/-- C1: for every product and every purchase whose quantity parses to a
positive integer strictly greater than the current stock, the action
returns 400 Bad Request with a detail message naming the quantity actually
available, and the product row (every stored field) is unchanged. -/
theorem purchase_insufficient_stock (p : Product) (v : ReqVal) (now : Nat) (q : ℤ)
    (hq : pyInt v = .ok q) (hpos : 0 < q) (hgt : p.stock_quantity < q) :
    (purchase p v now).resp =
      Except.ok (Response.badRequest
        ("Not enough stock. Only " ++ toString p.stock_quantity ++ " available.")) ∧
    (purchase p v now).product = p := by
  rw [purchase_of_pyInt_ok p v now q hq, if_neg (by omega), if_pos hgt]
  exact ⟨rfl, rfl⟩

/-- Witness for C1: stock 10, quantity 11. -/
theorem purchase_insufficient_stock_witness :
    pyInt (ReqVal.vint 11) = Except.ok 11 ∧ (0:ℤ) < 11 ∧
    sampleProduct.stock_quantity < 11 ∧
    (purchase sampleProduct (ReqVal.vint 11) 5).resp =
      Except.ok (Response.badRequest "Not enough stock. Only 10 available.") ∧
    (purchase sampleProduct (ReqVal.vint 11) 5).product = sampleProduct := by
  have h := purchase_insufficient_stock sampleProduct (ReqVal.vint 11) 5 11 rfl
    (by decide) (by decide)
  exact ⟨rfl, by decide, by decide, by rw [h.1]; decide, h.2⟩

/-- C2: starting from any non-negative stock, the stock is still
non-negative after every sequence of purchase attempts (successful or
failed); no purchase drives it negative. -/
theorem stock_quantity_never_negative (p : Product) (h : 0 ≤ p.stock_quantity)
    (reqs : List (ReqVal × Nat)) : 0 ≤ (runPurchases p reqs).stock_quantity := by
  induction reqs generalizing p with
  | nil => exact h
  | cons r rs ih => exact ih _ (purchase_stock_nonneg p r.1 r.2 h)

/-- Witness for C2: stock 10 through four attempts (one of them over-stock,
one malformed). -/
theorem stock_quantity_never_negative_witness :
    (0:ℤ) ≤ sampleProduct.stock_quantity ∧
    0 ≤ (runPurchases sampleProduct
      [(ReqVal.vint 3, 1), (ReqVal.vint 99, 2), (ReqVal.vstr "oops", 3),
       (ReqVal.vint 7, 4)]).stock_quantity :=
  ⟨by decide, stock_quantity_never_negative sampleProduct (by decide) _⟩

/-- C3: for every product and quantity parsing to a positive integer at
most the current stock, the purchase succeeds: the row written back has its
stock decreased by exactly that quantity (and a refreshed `updated_at`),
and the response is 200 carrying the full updated product. -/
theorem purchase_success (p : Product) (v : ReqVal) (now : Nat) (q : ℤ)
    (hq : pyInt v = .ok q) (hpos : 0 < q) (hle : q ≤ p.stock_quantity) :
    (purchase p v now).product =
      { p with stock_quantity := p.stock_quantity - q, updated_at := now } ∧
    (purchase p v now).resp =
      Except.ok (Response.ok
        { p with stock_quantity := p.stock_quantity - q, updated_at := now }) := by
  rw [purchase_success_aux p v now q hq hpos hle]
  exact ⟨rfl, rfl⟩

/-- Witness for C3, the spec's scenario: stock 10, quantity 3, stock
becomes 7 and the 200 response carries the saved row. -/
theorem purchase_success_witness :
    pyInt (ReqVal.vint 3) = Except.ok 3 ∧ (0:ℤ) < 3 ∧
    (3:ℤ) ≤ sampleProduct.stock_quantity ∧
    (purchase sampleProduct (ReqVal.vint 3) 5).product.stock_quantity = 7 ∧
    (purchase sampleProduct (ReqVal.vint 3) 5).resp =
      Except.ok (Response.ok ((purchase sampleProduct (ReqVal.vint 3) 5).product)) := by
  have h := purchase_success sampleProduct (ReqVal.vint 3) 5 3 rfl (by decide) (by decide)
  refine ⟨rfl, by decide, by decide, by rw [h.1]; decide, ?_⟩
  rw [h.2, h.1]

/-- C4 counterexample: a purchase whose quantity is a JSON array does not
parse as an integer, yet the action does not return a 400 response:
`int(...)` raises `TypeError`, the handler only catches `ValueError`, and
the exception escapes (a 500-class server error). -/
theorem purchase_list_quantity_not_400 :
    (purchase sampleProduct ReqVal.vlist 5).resp = Except.error PyErr.typeError := by
  decide

/-- C4 (amended): for every purchase request whose quantity is missing (or
null), is a string that does not parse as an integer, or parses to a
non-positive integer, the action returns 400 with the message identifying
the violated constraint (missing / non-integer / non-positive) and the row
is unchanged.  (Values outside these cases, e.g. JSON arrays, instead make
the uncaught `TypeError` escape the handler.) -/
theorem purchase_invalid_quantity (p : Product) (v : ReqVal) (now : Nat) :
    (v = ReqVal.none →
      purchase p v now = ⟨.ok (.badRequest "Quantity is required."), p⟩) ∧
    (pyInt v = .error .valueError →
      purchase p v now = ⟨.ok (.badRequest "Quantity must be an integer."), p⟩) ∧
    (∀ q : ℤ, pyInt v = .ok q → q ≤ 0 →
      purchase p v now = ⟨.ok (.badRequest "Quantity must be a positive integer."), p⟩) := by
  refine ⟨?_, ?_, ?_⟩
  · rintro rfl; rfl
  · exact purchase_of_valueError p v now
  · intro q hq hle
    rw [purchase_of_pyInt_ok p v now q hq, if_pos hle]

/-- Witness for C4 (amended): a missing quantity, the string "abc" and the
integer 0 each draw their 400 and leave the row unchanged. -/
theorem purchase_invalid_quantity_witness :
    purchase sampleProduct ReqVal.none 5 =
      ⟨Except.ok (Response.badRequest "Quantity is required."), sampleProduct⟩ ∧
    pyInt (ReqVal.vstr "abc") = Except.error PyErr.valueError ∧
    purchase sampleProduct (ReqVal.vstr "abc") 5 =
      ⟨Except.ok (Response.badRequest "Quantity must be an integer."), sampleProduct⟩ ∧
    pyInt (ReqVal.vint 0) = Except.ok 0 ∧
    purchase sampleProduct (ReqVal.vint 0) 5 =
      ⟨Except.ok (Response.badRequest "Quantity must be a positive integer."), sampleProduct⟩ :=
  ⟨(purchase_invalid_quantity sampleProduct ReqVal.none 5).1 rfl,
   by decide,
   (purchase_invalid_quantity sampleProduct (ReqVal.vstr "abc") 5).2.1 (by decide),
   by decide,
   (purchase_invalid_quantity sampleProduct (ReqVal.vint 0) 5).2.2 0 rfl (by decide)⟩

/-- C5: the check-then-decrement is NOT an atomic unit.  With stock 1 and
two concurrent quantity-1 purchases under the schedule read₁, read₂,
write₁, write₂ (possible because the view's SELECT and the unconditional
`save()` UPDATE are separate autocommit statements, with no row lock and no
conditional update), both requests succeed although the stock suffices for
only one — and the two decrements collapse into one lost update. -/
theorem purchase_race_both_succeed :
    interleavedPurchases 1 1 1 = (true, true, 0) := by decide

/-- C10: for every product with positive stock, a purchase of exactly the
current stock succeeds (the sufficiency check is strict less-than, so
equality passes): 200 response carrying the saved row, whose stock is 0. -/
theorem purchase_exact_stock (p : Product) (v : ReqVal) (now : Nat)
    (hq : pyInt v = .ok p.stock_quantity) (hpos : 0 < p.stock_quantity) :
    (purchase p v now).resp =
      Except.ok (Response.ok ((purchase p v now).product)) ∧
    (purchase p v now).product.stock_quantity = 0 := by
  rw [purchase_success_aux p v now p.stock_quantity hq hpos le_rfl]
  exact ⟨rfl, by simp⟩

/-- Witness for C10: stock 10, quantity 10, final stock 0. -/
theorem purchase_exact_stock_witness :
    pyInt (ReqVal.vint 10) = Except.ok sampleProduct.stock_quantity ∧
    (0:ℤ) < sampleProduct.stock_quantity ∧
    (purchase sampleProduct (ReqVal.vint 10) 5).product.stock_quantity = 0 :=
  ⟨by decide, by decide,
   (purchase_exact_stock sampleProduct (ReqVal.vint 10) 5 (by decide) (by decide)).2⟩

/-! ## Claims about access control and filtering -/

/-- C8: read-only (safe) methods pass the permission gate with or without
a credential; a mutating method presented without a valid API key is
answered 403 Forbidden, the store is unchanged, and the underlying handler
is never invoked (the result does not mention it). -/
theorem write_requires_api_key (issued : List String) (method : String)
    (key : Option String) (handler : Store → Response × Store) (s : Store) :
    (SAFE_METHODS.contains method = true →
      processRequest issued method key handler s = handler s) ∧
    (SAFE_METHODS.contains method = false → hasAPIKey issued key = false →
      processRequest issued method key handler s = (Response.forbidden, s)) := by
  constructor
  · intro hs
    have hm : method ∈ SAFE_METHODS := by simpa using hs
    simp [processRequest, has_permission, hm]
  · intro hs hk
    have hm : method ∉ SAFE_METHODS := by simpa using hs
    simp [processRequest, has_permission, hm, hk]

/-- Witness for C8: an uncredentialed GET reaches its handler; an
uncredentialed POST is answered 403 on an unchanged store. -/
theorem write_requires_api_key_witness :
    SAFE_METHODS.contains "GET" = true ∧
    processRequest [] "GET" Option.none (fun st => (Response.notFound, st)) sampleStore =
      (Response.notFound, sampleStore) ∧
    SAFE_METHODS.contains "POST" = false ∧
    hasAPIKey ["secret"] Option.none = false ∧
    processRequest ["secret"] "POST" Option.none
      (fun _ => (Response.notFound, ⟨[], []⟩)) sampleStore =
      (Response.forbidden, sampleStore) :=
  ⟨by decide,
   (write_requires_api_key [] "GET" Option.none _ sampleStore).1 (by decide),
   by decide, by decide,
   (write_requires_api_key ["secret"] "POST" Option.none _ sampleStore).2
     (by decide) (by decide)⟩

/-- The spec's description of one product matching the supplied filters:
name as case-insensitive substring, min_price as `price ≥ v`, max_price as
`price ≤ v`, category as exact identity match, `available=true` as
`stock_quantity > 0`, `available=false` as `stock_quantity = 0`, and
is_featured as exact flag match. -/
def specMatches (fp : ProductFilter) (p : Product) : Prop :=
  (∀ f, fp.name = some f → icontains p.name f = true) ∧
  (∀ v, fp.min_price = some v → v ≤ p.price) ∧
  (∀ v, fp.max_price = some v → p.price ≤ v) ∧
  (∀ c, fp.category = some c → p.category.map (fun i => (i : ℚ)) = some c) ∧
  (fp.available = some true → 0 < p.stock_quantity) ∧
  (fp.available = some false → p.stock_quantity = 0) ∧
  (∀ b, fp.is_featured = some b → p.is_featured = b)

/-- Membership through the name stage of the filter chain. -/
theorem mem_stage_name (qs : List Product) (n : Option String) (p : Product) :
    p ∈ applyOpt qs n (fun l v => l.filter (fun p => icontains p.name v)) ↔
      p ∈ qs ∧ ∀ f, n = some f → icontains p.name f = true := by
  cases n <;> simp [applyOpt, List.mem_filter]

/-- Membership through the min_price stage of the filter chain. -/
theorem mem_stage_min (qs : List Product) (mn : Option ℚ) (p : Product) :
    p ∈ applyOpt qs mn (fun l v => l.filter (fun p => v ≤ p.price)) ↔
      p ∈ qs ∧ ∀ v, mn = some v → v ≤ p.price := by
  cases mn <;> simp [applyOpt, List.mem_filter]

/-- Membership through the max_price stage of the filter chain. -/
theorem mem_stage_max (qs : List Product) (mx : Option ℚ) (p : Product) :
    p ∈ applyOpt qs mx (fun l v => l.filter (fun p => p.price ≤ v)) ↔
      p ∈ qs ∧ ∀ v, mx = some v → p.price ≤ v := by
  cases mx <;> simp [applyOpt, List.mem_filter]

/-- Membership through the category stage of the filter chain. -/
theorem mem_stage_category (qs : List Product) (c : Option ℚ) (p : Product) :
    p ∈ applyOpt qs c
        (fun l v => l.filter (fun p => p.category.map (fun c => (c : ℚ)) = some v)) ↔
      p ∈ qs ∧ ∀ v, c = some v → p.category.map (fun i => (i : ℚ)) = some v := by
  cases c <;> simp [applyOpt, List.mem_filter]

/-- Membership through the available stage of the filter chain. -/
theorem mem_stage_available (qs : List Product) (av : Option Bool) (p : Product) :
    p ∈ applyOpt qs av filter_available ↔
      p ∈ qs ∧ (av = some true → 0 < p.stock_quantity) ∧
        (av = some false → p.stock_quantity = 0) := by
  rcases av with _ | ⟨_ | _⟩ <;> simp [applyOpt, filter_available, List.mem_filter]

/-- Membership through the is_featured stage of the filter chain. -/
theorem mem_stage_featured (qs : List Product) (ft : Option Bool) (p : Product) :
    p ∈ applyOpt qs ft (fun l v => l.filter (fun p => p.is_featured = v)) ↔
      p ∈ qs ∧ ∀ b, ft = some b → p.is_featured = b := by
  cases ft <;> simp [applyOpt, List.mem_filter]

/-- C6: for every combination of supplied filter parameters, the filtered
queryset consists exactly of the input products satisfying the conjunction
of all supplied filter predicates. -/
theorem filtering_is_conjunctive (fp : ProductFilter) (qs : List Product)
    (p : Product) :
    p ∈ fp.filter_queryset qs ↔ p ∈ qs ∧ specMatches fp p := by
  obtain ⟨n, mn, mx, c, av, ft⟩ := fp
  simp only [ProductFilter.filter_queryset, specMatches]
  rw [mem_stage_featured, mem_stage_available, mem_stage_category, mem_stage_max,
    mem_stage_min, mem_stage_name]
  tauto

/-- Witness for C6: with all six filters supplied, membership of a
concrete product in the filtered result yields each conjunct. -/
theorem filtering_is_conjunctive_witness :
    sampleProduct ∈ [sampleProduct, sampleProduct2] ∧
    specMatches ⟨some "farm", some 5, some 15, some 1, some true, some true⟩
      sampleProduct :=
  (filtering_is_conjunctive ⟨some "farm", some 5, some 15, some 1, some true, some true⟩
    [sampleProduct, sampleProduct2] sampleProduct).mp (by decide)

/-! ## Helpers for the ordering claim -/

/-- Field name of each sortable column, as listed in `ordering_fields`. -/
def keyName : OrdKey → String
  | .name => "name"
  | .price => "price"
  | .stock_quantity => "stock_quantity"
  | .created_at => "created_at"

theorem keyOf_eq_none_iff (s : String) : keyOf s = Option.none ↔ s ∉ ordering_fields := by
  unfold keyOf ordering_fields
  split_ifs with h1 h2 h3 h4 <;> simp_all

theorem applyOpt_sublist {α : Type} (qs : List Product) (v : Option α)
    (f : List Product → α → List Product) (hf : ∀ x, List.Sublist (f qs x) qs) :
    List.Sublist (applyOpt qs v f) qs := by
  cases v with
  | none => exact List.Sublist.refl qs
  | some x => exact hf x

/-- Filtering only removes rows, so it preserves any ordering of the
queryset. -/
theorem filter_queryset_sublist (fp : ProductFilter) (l : List Product) :
    List.Sublist (fp.filter_queryset l) l := by
  obtain ⟨n, mn, mx, c, av, ft⟩ := fp
  simp only [ProductFilter.filter_queryset]
  exact (applyOpt_sublist _ ft _ (fun x => List.filter_sublist _)).trans
    ((applyOpt_sublist _ av _
        (fun x => by cases x <;> exact List.filter_sublist _)).trans
      ((applyOpt_sublist _ c _ (fun x => List.filter_sublist _)).trans
        ((applyOpt_sublist _ mx _ (fun x => List.filter_sublist _)).trans
          ((applyOpt_sublist _ mn _ (fun x => List.filter_sublist _)).trans
            (applyOpt_sublist _ n _ (fun x => List.filter_sublist _))))))

theorem getParam_cons_ne (query : List (String × String)) (k v k' : String)
    (h : k ≠ k') : getParam ((k, v) :: query) k' = getParam query k' := by
  unfold getParam
  rw [List.reverse_cons, List.find?_append]
  have hnone : List.find? (fun kv => kv.1 = k') [(k, v)] = Option.none := by
    simp [List.find?, h]
  rw [hnone, Option.or_none]

/-- Unrecognized query-string keys do not influence the list endpoint. -/
theorem handleList_ignores_unknown (st : Store) (query : List (String × String))
    (k v : String) (h : k ∉ recognizedKeys) :
    handleList st ((k, v) :: query) = handleList st query := by
  simp only [recognizedKeys, List.mem_cons, List.not_mem_nil, or_false, not_or] at h
  obtain ⟨h1, h2, h3, h4, h5, h6, h7⟩ := h
  simp only [handleList, parseFilterParams,
    getParam_cons_ne query k v _ h1, getParam_cons_ne query k v _ h2,
    getParam_cons_ne query k v _ h3, getParam_cons_ne query k v _ h4,
    getParam_cons_ne query k v _ h5, getParam_cons_ne query k v _ h6,
    getParam_cons_ne query k v _ h7]

/-! ## The ordering claim -/

/-- Invalid terms are exactly those `get_ordering`'s filterMap drops. -/
theorem termKey_eq_none (cs : List Char) (h : term_valid cs = false) :
    termKey cs = Option.none := by
  unfold term_valid at h
  cases hk : termKey cs with
  | none => rfl
  | some x =>
      rw [hk] at h
      simp at h

/-- C7: a single `ordering` parameter naming one of the four
`ordering_fields` yields a result non-decreasing on that column; its
`-`-prefixed form yields a non-increasing result; with no `ordering`
parameter the result keeps the store default, ascending by name
(`Product.Meta.ordering`); an `ordering` parameter all of whose
comma-separated, whitespace-stripped terms are unrecognized is ignored
(the result equals the default-ordered one); and an unrecognized
query-string key is ignored by the whole list endpoint. -/
theorem ordering_contract (qs : List Product) (fp : ProductFilter) :
    (∀ k : OrdKey, (listProducts qs fp (some (keyName k))).Sorted (keyLE k)) ∧
    (∀ k : OrdKey,
      (listProducts qs fp
        (some (String.mk ('-' :: (keyName k).toList)))).Sorted (keyGE k)) ∧
    (listProducts qs fp Option.none).Sorted (keyLE .name) ∧
    (∀ s : String,
      (∀ cs ∈ (splitComma s.toList).map stripWs, term_valid cs = false) →
      listProducts qs fp (some s) = listProducts qs fp Option.none) ∧
    (∀ (query : List (String × String)) (k v : String), k ∉ recognizedKeys →
      ∀ st : Store, handleList st ((k, v) :: query) = handleList st query) := by
  refine ⟨?_, ?_, ?_, ?_, ?_⟩
  · intro k
    have hp : get_ordering (some (keyName k)) = [(k, false)] := by
      cases k <;> rfl
    simp only [listProducts, hp, List.isEmpty_cons, Bool.false_eq_true, if_false,
      order_by]
    exact List.Pairwise.imp (fun h => (orderingLE_single (k, false) _ _).mp h)
      (List.sorted_insertionSort (orderingLE [(k, false)]) _)
  · intro k
    have hp : get_ordering (some (String.mk ('-' :: (keyName k).toList))) =
        [(k, true)] := by
      cases k <;> rfl
    simp only [listProducts, hp, List.isEmpty_cons, Bool.false_eq_true, if_false,
      order_by]
    exact List.Pairwise.imp (fun h => (orderingLE_single (k, true) _ _).mp h)
      (List.sorted_insertionSort (orderingLE [(k, true)]) _)
  · simp only [listProducts, get_ordering, List.isEmpty_nil, if_true]
    exact List.Pairwise.sublist (filter_queryset_sublist fp _)
      (List.sorted_insertionSort (keyLE .name) qs)
  · intro s hs
    have h0 : get_ordering (some s) = [] := by
      show (if s = "" then []
        else ((splitComma s.toList).map stripWs).filterMap termKey) = []
      by_cases he : s = ""
      · rw [if_pos he]
      · rw [if_neg he, List.filterMap_eq_nil_iff]
        intro cs hcs
        exact termKey_eq_none cs (hs cs hcs)
    simp only [listProducts, h0]
    simp only [get_ordering, List.isEmpty_nil, if_true]
  · intro query k v h st
    exact handleList_ignores_unknown st query k v h

/-- Witness for C7: ordering by price ascending is sorted; the parameter
"xyz, -foo" (two terms, both unrecognized after stripping) is ignored; the
key "foo" is not recognized and is ignored. -/
theorem ordering_contract_witness :
    (listProducts [sampleProduct, sampleProduct2] emptyFilter
      (some (keyName OrdKey.price))).Sorted (keyLE OrdKey.price) ∧
    (∀ cs ∈ (splitComma "xyz, -foo".toList).map stripWs, term_valid cs = false) ∧
    listProducts [sampleProduct, sampleProduct2] emptyFilter (some "xyz, -foo") =
      listProducts [sampleProduct, sampleProduct2] emptyFilter Option.none ∧
    "foo" ∉ recognizedKeys ∧
    handleList sampleStore [("foo", "1")] = handleList sampleStore [] :=
  ⟨(ordering_contract [sampleProduct, sampleProduct2] emptyFilter).1 OrdKey.price,
   by decide,
   (ordering_contract [sampleProduct, sampleProduct2] emptyFilter).2.2.2.1 "xyz, -foo"
     (by decide),
   by decide,
   (ordering_contract [sampleProduct, sampleProduct2] emptyFilter).2.2.2.2 [] "foo" "1"
     (by decide) sampleStore⟩

/-! ## The frame claim -/

/-- Equality on every stored field other than `stock_quantity` and the
server-maintained `updated_at`. -/
def frameEq (p q : Product) : Prop :=
  p.id = q.id ∧ p.name = q.name ∧ p.description = q.description ∧
  p.price = q.price ∧ p.image_url = q.image_url ∧
  p.is_featured = q.is_featured ∧ p.category = q.category ∧
  p.created_at = q.created_at

instance (p q : Product) : Decidable (frameEq p q) := by
  unfold frameEq
  infer_instance

/-- C9: a successful purchase on product `pk` leaves every category row
and every other product row untouched, and changes the target row only in
`stock_quantity` (strictly decreased) and `updated_at`: all other stored
fields are preserved.  (`hnodup` is the store's primary-key uniqueness.) -/
theorem purchase_frame_effect (s : Store) (pk : Nat) (v : ReqVal) (now : Nat)
    (p' : Product) (hnodup : (s.products.map Product.id).Nodup)
    (hresp : (purchaseStore s pk v now).1 = Except.ok (Response.ok p')) :
    (purchaseStore s pk v now).2.categories = s.categories ∧
    List.Forall₂
      (fun q r => (q.id ≠ pk → r = q) ∧ (q.id = pk → r = p' ∧ frameEq q r))
      s.products (purchaseStore s pk v now).2.products := by
  cases hfind : s.products.find? (fun p => p.id = pk) with
  | none =>
      simp only [purchaseStore, hfind] at hresp
      simp at hresp
  | some p =>
      simp only [purchaseStore, hfind] at hresp ⊢
      obtain ⟨hprod, hid, hname, hdesc, hprice, himg, hfeat, hcat, hcreated, hlt⟩ :=
        purchase_resp_ok_inv p v now p' hresp
      have hpmem : p ∈ s.products := List.mem_of_find?_eq_some hfind
      have hpid : p.id = pk := by
        have h2 := List.find?_some (p := fun r : Product => decide (r.id = pk)) hfind
        simpa using h2
      refine ⟨by trivial, ?_⟩
      rw [List.forall₂_map_right_iff, List.forall₂_same]
      intro q hq
      by_cases hqid : q.id = pk
      · have hqp : q = p :=
          List.inj_on_of_nodup_map hnodup hq hpmem (by rw [hqid, hpid])
        subst hqp
        refine ⟨fun hne => absurd hqid hne, fun _ => ?_⟩
        rw [if_pos hqid, hprod]
        exact ⟨rfl, ⟨hid.symm, hname.symm, hdesc.symm, hprice.symm, himg.symm,
          hfeat.symm, hcat.symm, hcreated.symm⟩⟩
      · exact ⟨fun _ => by rw [if_neg hqid], fun h => absurd h hqid⟩

/-- The target row of the witness purchase after the decrement. -/
def sampleProductAfter : Product :=
  { sampleProduct with stock_quantity := 7, updated_at := 9 }

/-- Witness for C9: buying 3 of product 1 in the sample store leaves the
category list and product 2 unchanged and preserves product 1's frame. -/
theorem purchase_frame_effect_witness :
    (sampleStore.products.map Product.id).Nodup ∧
    (purchaseStore sampleStore 1 (ReqVal.vint 3) 9).1 =
      Except.ok (Response.ok sampleProductAfter) ∧
    (purchaseStore sampleStore 1 (ReqVal.vint 3) 9).2.categories =
      sampleStore.categories ∧
    List.Forall₂
      (fun q r => (q.id ≠ 1 → r = q) ∧ (q.id = 1 → r = sampleProductAfter ∧ frameEq q r))
      sampleStore.products (purchaseStore sampleStore 1 (ReqVal.vint 3) 9).2.products := by
  have h := purchase_frame_effect sampleStore 1 (ReqVal.vint 3) 9 sampleProductAfter
    (by decide) (by decide)
  exact ⟨by decide, by decide, h.1, h.2⟩
